import Mathlib

/-!
Shallow embedding of the python-cipclient library (cipclient.py): the CIP
packet codec, the join store, the event processor, the public API entry
points, the receive-path framing loop and the protocol decoder, together
with theorems checking the specification's claims against them.

Conventions of the embedding:
- Python byte strings are lists of naturals (each < 256 in well-formed data).
- Python ints are Lean Int where sign matters (analog values), Nat where the
  source only ever produces non-negative values (join ids, packed bytes).
- Fallible Python operations (index assignment out of byte range,
  int.to_bytes overflow, ascii codec errors) are modelled with Option:
  none means the Python code raises an uncaught exception at that point.
- Python dicts are association lists in insertion order: assignment to an
  existing key updates in place, assignment to a fresh key appends.
-/

namespace CIPClient

/-- A Python value flowing through the event pipeline: an int or a str.
Strings are represented by their list of character code points. -/
inductive PyVal where
  | intV (n : Int)
  | strV (s : List Nat)
deriving DecidableEq

/-- Signal direction: the keys "in" and "out" of the join dictionary. -/
inductive Dir where
  | inn
  | out
deriving DecidableEq

/-- The sigtype strings that ever enter the event queue: "d", "db", "dp",
"a", "s" (set produces d, a, s; press and release produce db; pulse
produces dp; the protocol decoder produces d, a, s). -/
inductive Flavor where
  | d
  | db
  | dp
  | a
  | s
deriving DecidableEq

/-- The single-character sigtype keys of the join store: "d", "a", "s". -/
inductive SigKey where
  | d
  | a
  | s
deriving DecidableEq

/-- Python expression sigtype[0]: the first character of the flavor string. -/
def Flavor.head : Flavor → SigKey
  | .d => .d
  | .db => .d
  | .dp => .d
  | .a => .a
  | .s => .s

/-- Abstract behaviour of a subscriber callback when invoked: it returns
normally, raises KeyError, or raises some exception other than KeyError. -/
inductive CbBeh where
  | ok
  | raiseKeyError
  | raiseOther
deriving DecidableEq

/-- Outcome of running a list of callbacks in order (first exception wins). -/
inductive CbOutcome where
  | allOk
  | keyErr
  | otherErr
deriving DecidableEq

/-- Run the callbacks of a join entry in order; stop at the first raise. -/
def cbRun : List CbBeh → CbOutcome
  | [] => .allOk
  | .ok :: rest => cbRun rest
  | .raiseKeyError :: _ => .keyErr
  | .raiseOther :: _ => .otherErr

/-- One value of the join dictionary: the Python list [value, callback, ...],
split into its head (current value) and tail (subscriber callbacks). -/
structure JoinEntry where
  value : PyVal
  callbacks : List CbBeh
deriving DecidableEq

/-- One per-sigtype dictionary mapping join id to entry, insertion ordered. -/
abbrev JoinDict := List (Nat × JoinEntry)

/-- Dictionary read: first binding of the key, if any. -/
def dGet (l : JoinDict) (j : Nat) : Option JoinEntry :=
  match l with
  | [] => none
  | (k, e) :: rest => if k = j then some e else dGet rest j

/-- Dictionary assignment: update the first binding in place, or append. -/
def dSet (l : JoinDict) (j : Nat) (e : JoinEntry) : JoinDict :=
  match l with
  | [] => [(j, e)]
  | (k, x) :: rest => if k = j then (j, e) :: rest else (k, x) :: dSet rest j e

/-- The per-direction half of the join store, with its three sigtype keys
"d", "a", "s" in the insertion order of the source's initializer. -/
structure SigStore where
  d : JoinDict
  a : JoinDict
  s : JoinDict
deriving DecidableEq

/-- The join store: self.join = their "in" and "out" halves. -/
structure JoinStore where
  inn : SigStore
  out : SigStore
deriving DecidableEq

/-- Read the dictionary self.join[direction][sigkey]. -/
def storeDict (js : JoinStore) : Dir → SigKey → JoinDict
  | .inn, .d => js.inn.d
  | .inn, .a => js.inn.a
  | .inn, .s => js.inn.s
  | .out, .d => js.out.d
  | .out, .a => js.out.a
  | .out, .s => js.out.s

/-- Replace the dictionary self.join[direction][sigkey]. -/
def storePut (js : JoinStore) (dir : Dir) (sk : SigKey) (l : JoinDict) : JoinStore :=
  match dir, sk with
  | .inn, .d => { js with inn := { js.inn with d := l } }
  | .inn, .a => { js with inn := { js.inn with a := l } }
  | .inn, .s => { js with inn := { js.inn with s := l } }
  | .out, .d => { js with out := { js.out with d := l } }
  | .out, .a => { js with out := { js.out with a := l } }
  | .out, .s => { js with out := { js.out with s := l } }

/-- A tuple placed on the event queue: (direction, sigtype, join, value). -/
structure Event where
  dir : Dir
  sigtype : Flavor
  join : Nat
  value : PyVal
deriving DecidableEq

/-- The shared session state of a CIPSocketClient that the codec, decoder
and event processor read and write. Queues are lists, oldest first; ipid is
the single byte stored by the constructor. -/
structure ClientState where
  connected : Bool
  restart_connection : Bool
  ipid : Nat
  tx_queue : List (List Nat)
  event_queue : List Event
  join : JoinStore
  buttons_pressed : List (Nat × List Nat)
deriving DecidableEq

/-- The string of a Python str value, or str(n) of an int, as code points. -/
def strBytes (s : String) : List Nat :=
  s.data.map Char.toNat

/-- Python str(value) coercion as performed by set() for serial values. -/
def pyStr : PyVal → List Nat
  | .intV n => strBytes (toString n)
  | .strV s => s

/-- Python n.to_bytes(2, "big") on a natural: raises OverflowError unless
the value fits in two bytes. -/
def toBytes2N (n : Nat) : Option (List Nat) :=
  if n < 65536 then some [n / 256, n % 256] else none

/-- Python n.to_bytes(2, "big") on an int: also raises for negatives. -/
def toBytes2I (n : Int) : Option (List Nat) :=
  if 0 ≤ n ∧ n < 65536 then some [n.toNat / 256, n.toNat % 256] else none

/-- Python bytearray index assignment b[i] = v: raises unless v < 256. -/
def setByte (l : List Nat) (i v : Nat) : Option (List Nat) :=
  if v < 256 then some (l.set i v) else none

/-- Python bytearray(s, "ascii"): raises unless every code point is ASCII. -/
def asciiEncode (s : List Nat) : Option (List Nat) :=
  if s.all (fun c => c < 128) then some s else none

/-- Python str(b, "ascii"): raises unless every byte is ASCII. -/
def asciiDecode (b : List Nat) : Option (List Nat) :=
  if b.all (fun c => c < 128) then some b else none

/-- The class attribute _cip_packet: outbound packet templates per sigtype. -/
def cip_packet : Flavor → List Nat
  | .d => [0x05, 0x00, 0x06, 0x00, 0x00, 0x03, 0x00]
  | .db => [0x05, 0x00, 0x06, 0x00, 0x00, 0x03, 0x27]
  | .dp => [0x05, 0x00, 0x06, 0x00, 0x00, 0x03, 0x27]
  | .a => [0x05, 0x00, 0x08, 0x00, 0x00, 0x05, 0x14]
  | .s => [0x12, 0x00, 0x00, 0x00, 0x00, 0x00, 0x00, 0x34]

/-- CIPSocketClient.set: validate sigtype/value and return the event put on
the event queue, or none when the call logs and returns without enqueueing. -/
def set (sigtype : SigKey) (join : Nat) (value : PyVal) : Option Event :=
  match sigtype with
  | .d =>
    if value ≠ .intV 0 ∧ value ≠ .intV 1 then none
    else some ⟨.out, .d, join, value⟩
  | .a =>
    match value with
    | .intV n => if n > 65535 then none else some ⟨.out, .a, join, .intV n⟩
    | .strV _ => none
  | .s => some ⟨.out, .s, join, .strV (pyStr value)⟩

/-- The outbound packet construction of EventThread.run (lines 156-177):
template copy, join packing and value encoding per sigtype flavor. The
result is the final bytearray tx, or none when a bytes operation raises. -/
def encodeOut (sigtype : Flavor) (join : Nat) (value : PyVal) : Option (List Nat) :=
  let tx := cip_packet sigtype
  let cip_join := join - 1
  match sigtype.head with
  | .d =>
    let packed0 := cip_join / 256 + cip_join % 256 * 256
    let packed_join := if value = .intV 0 then packed0 ||| 0x80 else packed0
    (toBytes2N packed_join).map (fun b => tx ++ b)
  | .a =>
    match value with
    | .intV v =>
      (toBytes2N cip_join).bind (fun jb =>
        (toBytes2I v).map (fun vb => tx ++ jb ++ vb))
    | .strV _ => none
  | .s =>
    match value with
    | .strV sv =>
      (setByte tx 2 (8 + sv.length)).bind (fun tx2 =>
        (setByte tx2 6 (4 + sv.length)).bind (fun tx6 =>
          (toBytes2N cip_join).bind (fun jb =>
            (asciiEncode sv).map (fun ab => tx6 ++ jb ++ [0x03] ++ ab))))
    | .intV _ => none

/-- The store upsert of EventThread.run (lines 144-152): set the value and
fire the callbacks of an existing entry, catching only KeyError by
replacing the entry with a bare [value]; a missing key also lands in the
KeyError handler. none means a non-KeyError exception escaped. -/
def applyStore (l : JoinDict) (join : Nat) (value : PyVal) : Option JoinDict :=
  match dGet l join with
  | some e =>
    match cbRun e.callbacks with
    | .allOk => some (dSet l join { e with value := value })
    | .keyErr => some (dSet l join ⟨value, []⟩)
    | .otherErr => none
  | none => some (dSet l join ⟨value, []⟩)

/-- The join-store half of one EventThread.run loop body. -/
def storeStep (st : ClientState) (ev : Event) : Option ClientState :=
  (applyStore (storeDict st.join ev.dir ev.sigtype.head) ev.join ev.value).map
    (fun l => { st with join := storePut st.join ev.dir ev.sigtype.head l })

/-- Assignment into the buttons_pressed dict (same semantics as dSet). -/
def bpSet (l : List (Nat × List Nat)) (j : Nat) (tx : List Nat) : List (Nat × List Nat) :=
  match l with
  | [] => [(j, tx)]
  | (k, x) :: rest => if k = j then (j, tx) :: rest else (k, x) :: bpSet rest j tx

/-- buttons_pressed.pop(join): drop the binding of the key. -/
def bpPop (l : List (Nat × List Nat)) (j : Nat) : List (Nat × List Nat) :=
  match l with
  | [] => []
  | (k, x) :: rest => if k = j then rest else (k, x) :: bpPop rest j

/-- The outbound half of one EventThread.run loop body: encode the packet,
maintain buttons_pressed for the db flavor, and put the packet on tx_queue
when connected and not restarting. -/
def outStep (st : ClientState) (ev : Event) : Option ClientState :=
  match ev.dir with
  | .inn => some st
  | .out =>
    match encodeOut ev.sigtype ev.join ev.value with
    | none => none
    | some tx =>
      let st :=
        if ev.sigtype = .db then
          if ev.value = .intV 1 then
            { st with buttons_pressed := bpSet st.buttons_pressed ev.join tx }
          else if (st.buttons_pressed.map Prod.fst).contains ev.join then
            { st with buttons_pressed := bpPop st.buttons_pressed ev.join }
          else st
        else st
      if st.connected = true ∧ st.restart_connection = false then
        some { st with tx_queue := st.tx_queue ++ [tx] }
      else some st

/-- One full iteration of the event processor on one dequeued event. -/
def processEvent (st : ClientState) (ev : Event) : Option ClientState :=
  (storeStep st ev).bind (fun st1 => outStep st1 ev)

/-- CIPSocketClient.get for a join that was validated: current value or the
type zero when the key chain is missing. -/
def getJoin (st : ClientState) (dir : Dir) (sigtype : SigKey) (join : Nat) : PyVal :=
  match dGet (storeDict st.join dir sigtype) join with
  | some e => e.value
  | none => match sigtype with
    | .s => .strV []
    | _ => .intV 0

/-- The end-of-query ack packet put on tx_queue by the 0x1C handler. -/
def eoqAck : List Nat := [0x05, 0x00, 0x05, 0x00, 0x00, 0x02, 0x03, 0x1D]

/-- The heartbeat packet. -/
def heartbeatPkt : List Nat := [0x0D, 0x00, 0x02, 0x00, 0x00]

/-- The update-request packet sent after a successful registration. -/
def updateRequestPkt : List Nat := [0x05, 0x00, 0x05, 0x00, 0x00, 0x02, 0x03, 0x00]

/-- The registration response for a stored ipid byte. -/
def regResponse (ipid : Nat) : List Nat :=
  [0x01, 0x00, 0x0B, 0x00, 0x00, 0x00, 0x00, 0x00, ipid, 0x40, 0xFF, 0xFF, 0xF1, 0x01]

/-- The replay loop of the 0x1C end-of-query handler over one sigtype
dictionary: self.set(sigtype, j, joins[j][0]) for each binding in order,
appending each event that set() accepts to the event queue. -/
def replayFold (sigtype : SigKey) (entries : JoinDict) (q : List Event) : List Event :=
  entries.foldl
    (fun acc p =>
      match set sigtype p.1 p.2.value with
      | some ev => acc ++ [ev]
      | none => acc)
    q

/-- CIPSocketClient._processPayload: dispatch on the packet type byte and
the data/update-request subtype bytes, mutating the session state. none
means an uncaught exception (an out-of-range payload index, or a non-ASCII
byte reaching the serial decoder). -/
def processPayload (st : ClientState) (ciptype : Nat) (payload : List Nat) :
    Option ClientState :=
  if ciptype = 0x0D ∨ ciptype = 0x0E then
    some st
  else if ciptype = 0x05 then
    match payload.get? 3 with
    | none => none
    | some datatype =>
      if datatype = 0x00 then
        match payload.get? 4, payload.get? 5 with
        | some b4, some b5 =>
          let join := (((b5 &&& 0x7F) <<< 8) ||| b4) + 1
          let state := ((b5 &&& 0x80) >>> 7) ^^^ 0x01
          some { st with event_queue := st.event_queue ++ [⟨.inn, .d, join, .intV state⟩] }
        | _, _ => none
      else if datatype = 0x14 then
        match payload.get? 4, payload.get? 5, payload.get? 6, payload.get? 7 with
        | some b4, some b5, some b6, some b7 =>
          let join := ((b4 <<< 8) ||| b5) + 1
          let value := (b6 <<< 8) + b7
          some { st with event_queue := st.event_queue ++ [⟨.inn, .a, join, .intV value⟩] }
        | _, _, _, _ => none
      else if datatype = 0x03 then
        match payload.get? 4 with
        | none => none
        | some urt =>
          if urt = 0x00 then some st
          else if urt = 0x16 then some st
          else if urt = 0x1C then
            let st1 := { st with
              tx_queue := st.tx_queue ++ [eoqAck, heartbeatPkt],
              connected := true }
            let q1 := replayFold .d st1.join.out.d st1.event_queue
            let q2 := replayFold .a st1.join.out.a q1
            let q3 := replayFold .s st1.join.out.s q2
            some { st1 with event_queue := q3 }
          else if urt = 0x1D then some st
          else some st
      else if datatype = 0x08 then some st
      else some st
  else if ciptype = 0x12 then
    match payload.get? 5, payload.get? 6 with
    | some b5, some b6 =>
      match asciiDecode (payload.drop 8) with
      | none => none
      | some sv =>
        let join := ((b5 <<< 8) ||| b6) + 1
        some { st with event_queue := st.event_queue ++ [⟨.inn, .s, join, .strV sv⟩] }
    | _, _ => none
  else if ciptype = 0x0F then
    some { st with tx_queue := st.tx_queue ++ [regResponse st.ipid] }
  else if ciptype = 0x02 then
    if payload.length = 3 ∧ payload = [0xFF, 0xFF, 0x02] then some st
    else if payload.length = 4 ∧ payload = [0x00, 0x00, 0x00, 0x1F] then
      some { st with tx_queue := st.tx_queue ++ [updateRequestPkt] }
    else some st
  else if ciptype = 0x03 then
    some st
  else
    some st

/-- The framing loop of ReceiveThread.run (lines 94-110) over one buffer
returned by a socket read: the sequence of (packet type, payload) pairs
handed to _processPayload. A remainder shorter than 4 bytes, or a declared
packet running past the buffer end, drops the rest of the buffer. -/
def frameLoop : Nat → List Nat → List (Nat × List Nat)
  | 0, _ => []
  | fuel + 1, rx =>
    if rx.length < 4 then []
    else
      let payload_length := rx.getD 1 0 <<< 8 + rx.getD 2 0
      let packet_length := payload_length + 3
      if rx.length < packet_length then []
      else
        (rx.getD 0 0, (rx.drop 3).take payload_length) :: frameLoop fuel (rx.drop packet_length)

/-- Entry point of the framing loop; the fuel bound never binds because
every framed packet consumes at least three bytes of the buffer. -/
def frameBuffer (rx : List Nat) : List (Nat × List Nat) :=
  frameLoop rx.length rx

/-- One receive-loop iteration on a buffer: frame it and feed each framed
packet through the protocol decoder in order. -/
def processBuffer (st : ClientState) (rx : List Nat) : Option ClientState :=
  (frameBuffer rx).foldlM (fun s p => processPayload s p.1 p.2) st

/-- A digital value as stored by any reachable event: 0 or 1. -/
def dOK (v : PyVal) : Bool :=
  v = .intV 0 || v = .intV 1

/-- An analog value as stored by any reachable event: an int at most 65535. -/
def aOK : PyVal → Bool
  | .intV n => n ≤ 65535
  | _ => false

/-- A serial value as stored by any reachable event: a string. -/
def sOK : PyVal → Bool
  | .strV _ => true
  | _ => false

/-- The outbound join store only holds values the public surface can have
put there; every reachable client state satisfies this. -/
def wellTypedOut (js : JoinStore) : Bool :=
  js.out.d.all (fun p => dOK p.2.value) &&
  js.out.a.all (fun p => aOK p.2.value) &&
  js.out.s.all (fun p => sOK p.2.value)

/-- The events replayed by the end-of-query handler: one outbound event per
outbound join, in store-walk order, carrying the stored value. -/
def replayEvents (ss : SigStore) : List Event :=
  ss.d.map (fun p => ⟨.out, .d, p.1, p.2.value⟩) ++
  ss.a.map (fun p => ⟨.out, .a, p.1, p.2.value⟩) ++
  ss.s.map (fun p => ⟨.out, .s, p.1, p.2.value⟩)

/-- A concrete session state used to evaluate the claims on explicit
inputs: registered with ipid 3, connected, no backlog, empty join store. -/
def baseState : ClientState :=
  { connected := true
    restart_connection := false
    ipid := 3
    tx_queue := []
    event_queue := []
    join := ⟨⟨[], [], []⟩, ⟨[], [], []⟩⟩
    buttons_pressed := [] }

/-- A session state holding one outbound digital join entry whose single
subscriber callback raises an exception that is not a KeyError. -/
def cbOtherState : ClientState :=
  { baseState with
    join := ⟨⟨[], [], []⟩, ⟨[(1, ⟨.intV 0, [.raiseOther]⟩)], [], []⟩⟩ }

/-- A session state holding one outbound digital join entry whose single
subscriber callback raises KeyError (with a second, well-behaved one). -/
def cbKeyErrState : ClientState :=
  { baseState with
    join := ⟨⟨[], [], []⟩, ⟨[(1, ⟨.intV 0, [.raiseKeyError, .ok]⟩)], [], []⟩⟩ }

/-- A not-yet-connected session state whose outbound store already holds a
digital, an analog and a serial join, as left behind by a previous
connection (used to exercise the end-of-query replay). -/
def replayState : ClientState :=
  { baseState with
    connected := false
    join := ⟨⟨[], [], []⟩,
             ⟨[(7, ⟨.intV 1, [.ok]⟩)],
              [(2, ⟨.intV 500, []⟩)],
              [(3, ⟨.strV [0x41], []⟩)]⟩⟩ }

/-- The state after the event processor handles press(4) on baseState: the
join stored under out/d, the press packet remembered for auto-repeat, and
the packet on tx_queue. -/
def pressResult : ClientState :=
  { baseState with
    join := ⟨⟨[], [], []⟩, ⟨[(4, ⟨.intV 1, []⟩)], [], []⟩⟩
    buttons_pressed := [(4, [0x05, 0x00, 0x06, 0x00, 0x00, 0x03, 0x27, 0x03, 0x00])]
    tx_queue := [[0x05, 0x00, 0x06, 0x00, 0x00, 0x03, 0x27, 0x03, 0x00]] }

/-! Bitwise arithmetic helpers used to reason about the join packing. -/

theorem lor_mod_two_pow (x y k : Nat) : (x ||| y) % 2 ^ k = x % 2 ^ k ||| y % 2 ^ k := by
  apply Nat.eq_of_testBit_eq
  intro i
  simp [Bool.and_or_distrib_left]

theorem lor_div_two_pow (x y k : Nat) : (x ||| y) / 2 ^ k = x / 2 ^ k ||| y / 2 ^ k := by
  rw [← Nat.shiftRight_eq_div_pow, ← Nat.shiftRight_eq_div_pow, ← Nat.shiftRight_eq_div_pow]
  apply Nat.eq_of_testBit_eq
  intro i
  simp

theorem lor_mod_256 (x y : Nat) : (x ||| y) % 256 = x % 256 ||| y % 256 := by
  have h := lor_mod_two_pow x y 8
  norm_num at h
  exact h

theorem lor_div_256 (x y : Nat) : (x ||| y) / 256 = x / 256 ||| y / 256 := by
  have h := lor_div_two_pow x y 8
  norm_num at h
  exact h

theorem lor_lt_65536 {x y : Nat} (hx : x < 65536) (hy : y < 65536) : x ||| y < 65536 := by
  have h16 : (65536 : Nat) = 2 ^ 16 := by norm_num
  rw [h16] at hx hy ⊢
  exact Nat.or_lt_two_pow hx hy

theorem and_127_of_lt {q : Nat} (h : q < 128) : q &&& 127 = q := by
  apply Nat.eq_of_testBit_eq
  intro i
  have h127 : (127 : Nat) = 2 ^ 7 - 1 := by norm_num
  simp only [Nat.testBit_and, h127, Nat.testBit_two_pow_sub_one]
  by_cases hi : i < 7
  · simp [hi]
  · have hq : q.testBit i = false := by
      apply Nat.testBit_lt_two_pow
      calc q < 128 := h
        _ = 2 ^ 7 := by norm_num
        _ ≤ 2 ^ i := Nat.pow_le_pow_right (by norm_num) (by omega)
    simp [hq]

theorem and_128_of_lt {q : Nat} (h : q < 128) : q &&& 128 = 0 := by
  apply Nat.eq_of_testBit_eq
  intro i
  have h128 : (128 : Nat) = 2 ^ 7 := by norm_num
  simp only [Nat.testBit_and, h128, Nat.testBit_two_pow, Nat.zero_testBit]
  by_cases hi : i = 7
  · subst hi
    have hq : q.testBit 7 = false := by
      apply Nat.testBit_lt_two_pow
      calc q < 128 := h
        _ = 2 ^ 7 := by norm_num
    simp [hq]
  · have h7 : ¬(7 = i) := fun hh => hi hh.symm
    simp [h7]

theorem or_and_right (x y z : Nat) : (x ||| y) &&& z = x &&& z ||| y &&& z := by
  apply Nat.eq_of_testBit_eq
  intro i
  simp [Bool.and_or_distrib_right]

theorem shiftLeft8_or_add (q r : Nat) (hr : r < 256) : (q <<< 8) ||| r = q * 256 + r := by
  have hq : q <<< 8 = q * 256 := by
    rw [Nat.shiftLeft_eq]
  have hmod : ((q <<< 8) ||| r) % 256 = r := by
    rw [lor_mod_256, hq]
    have h1 : q * 256 % 256 = 0 := by omega
    have h2 : r % 256 = r := by omega
    rw [h1, h2]
    simp
  have hdiv : ((q <<< 8) ||| r) / 256 = q := by
    rw [lor_div_256, hq]
    have h1 : q * 256 / 256 = q := by omega
    have h2 : r / 256 = 0 := by omega
    rw [h1, h2]
    simp
  omega

/-- Closed form of the digital outbound encoder for any digital flavor and
any join id in wire range: the template followed by the low join byte
(join-1) mod 256 and the high join byte (join-1) div 256, with 0x80 ORed
into the latter exactly when the value equals 0. -/
theorem encodeOut_digital (f : Flavor) (join : Nat) (v : PyVal)
    (hf : f.head = SigKey.d) (h1 : 1 ≤ join) (h2 : join ≤ 65536) :
    encodeOut f join v = some (cip_packet f ++
      [(join - 1) % 256,
       if v = PyVal.intV 0 then (join - 1) / 256 ||| 0x80 else (join - 1) / 256]) := by
  have hp0 : (join - 1) / 256 + (join - 1) % 256 * 256 < 65536 := by omega
  have d1 : ((join - 1) / 256 + (join - 1) % 256 * 256) / 256 = (join - 1) % 256 := by
    omega
  have d2 : ((join - 1) / 256 + (join - 1) % 256 * 256) % 256 = (join - 1) / 256 := by
    omega
  have key2 : toBytes2N ((join - 1) / 256 + (join - 1) % 256 * 256) =
      some [(join - 1) % 256, (join - 1) / 256] := by
    simp only [toBytes2N, if_pos hp0]
    rw [d1, d2]
  have key1 : toBytes2N (((join - 1) / 256 + (join - 1) % 256 * 256) ||| 128) =
      some [(join - 1) % 256, (join - 1) / 256 ||| 128] := by
    have hb := lor_lt_65536 hp0 (by norm_num : (128 : Nat) < 65536)
    simp only [toBytes2N, if_pos hb, lor_div_256, lor_mod_256]
    rw [d1, d2]
    norm_num
  by_cases hv : v = PyVal.intV 0
  · rw [if_pos hv]
    simp only [encodeOut, hf]
    rw [if_pos hv, key1]
    rfl
  · rw [if_neg hv]
    simp only [encodeOut, hf]
    rw [if_neg hv, key2]
    rfl

/-- C2 as stated is false at join 32769, value 0: the code ORs 0x80 into a
high join byte that already has its top bit set, so the second byte of the
join is 0x80, not the 0x00 that the XOR formula of the claim predicts. -/
theorem C2_counterexample :
    ¬ ((encodeOut Flavor.d 32769 (PyVal.intV 0)).bind (fun tx => tx.get? 8) =
        some ((32769 - 1) / 256 ^^^ 0x80)) := by decide

/-- C2 amended: for every digital join id 1..=65536 and value in 0 or 1, the
outbound digital packet is the template followed by first-byte-of-join
(join-1) mod 256 and second-byte-of-join ((join-1) div 256) OR (0x80 when
the value is 0); the claim's XOR must be weakened to OR. -/
theorem C2_digital_join_packing (join v : Nat) (h1 : 1 ≤ join) (h2 : join ≤ 65536)
    (hv : v = 0 ∨ v = 1) :
    encodeOut Flavor.d join (PyVal.intV v) =
      some (cip_packet Flavor.d ++
        [(join - 1) % 256,
         (join - 1) / 256 ||| (if v = 0 then 0x80 else 0x00)]) := by
  rw [encodeOut_digital Flavor.d join (PyVal.intV v) rfl h1 h2]
  rcases hv with hv | hv <;> subst hv
  · norm_num
  · norm_num

/-- Witness: C2_digital_join_packing applied at join 300, value 0. -/
theorem C2_digital_join_packing_witness :
    encodeOut Flavor.d 300 (PyVal.intV 0) =
      some (cip_packet Flavor.d ++
        [(300 - 1) % 256, (300 - 1) / 256 ||| (if 0 = 0 then 0x80 else 0x00)]) :=
  C2_digital_join_packing 300 0 (by decide) (by decide) (Or.inl rfl)

/-- Closed form of the analog outbound encoder: template, then the 0-based
join big-endian, then the value big-endian. -/
theorem encodeOut_analog (join : Nat) (v : Int) (h2 : join - 1 < 65536)
    (hv0 : 0 ≤ v) (hv : v < 65536) :
    encodeOut Flavor.a join (PyVal.intV v) =
      some (0x05 :: 0x00 :: 0x08 :: 0x00 :: 0x00 :: 0x05 :: 0x14 ::
        (join - 1) / 256 :: (join - 1) % 256 :: v.toNat / 256 :: [v.toNat % 256]) := by
  simp only [encodeOut, toBytes2N, toBytes2I, if_pos h2, if_pos (And.intro hv0 hv)]
  rfl

/-- Closed form of the serial outbound encoder for an encodable value: the
template with its two length bytes rewritten, then the 0-based join
big-endian, then 0x03, then the ASCII bytes. -/
theorem encodeOut_serial (join : Nat) (sv : List Nat)
    (hl : sv.length ≤ 247) (hj : join - 1 < 65536)
    (ha : sv.all (fun c => c < 128) = true) :
    encodeOut Flavor.s join (PyVal.strV sv) =
      some (0x12 :: 0x00 :: (8 + sv.length) :: 0x00 :: 0x00 :: 0x00 :: (4 + sv.length) ::
        0x34 :: (join - 1) / 256 :: (join - 1) % 256 :: 0x03 :: sv) := by
  have h2 : 8 + sv.length < 256 := by omega
  have h6 : 4 + sv.length < 256 := by omega
  simp [encodeOut, Flavor.head, setByte, toBytes2N, asciiEncode, if_pos h2, if_pos h6,
    if_pos hj, ha, cip_packet]

/-- The protocol decoder on an inbound digital data payload. -/
theorem processPayload_digital (st : ClientState) (x y : Nat) :
    processPayload st 0x05 [0x00, 0x00, 0x03, 0x00, x, y] =
      some { st with event_queue := st.event_queue ++
        [⟨.inn, .d, (((y &&& 0x7F) <<< 8) ||| x) + 1,
          .intV ((((y &&& 0x80) >>> 7) ^^^ 0x01 : Nat) : Int)⟩] } := rfl

/-- The protocol decoder on an inbound analog data payload. -/
theorem processPayload_analog (st : ClientState) (a b c d : Nat) :
    processPayload st 0x05 [0x00, 0x00, 0x05, 0x14, a, b, c, d] =
      some { st with event_queue := st.event_queue ++
        [⟨.inn, .a, ((a <<< 8) ||| b) + 1, .intV (((c <<< 8) + d : Nat) : Int)⟩] } := rfl

/-- The protocol decoder on an inbound serial packet payload. -/
theorem processPayload_serial (st : ClientState) (w jh jl : Nat) (sv : List Nat)
    (ha : sv.all (fun c => c < 128) = true) :
    processPayload st 0x12 (0x00 :: 0x00 :: 0x00 :: w :: 0x34 :: jh :: jl :: 0x03 :: sv) =
      some { st with event_queue := st.event_queue ++
        [⟨.inn, .s, ((jh <<< 8) ||| jl) + 1, .strV sv⟩] } := by
  have hd : (0x00 :: 0x00 :: 0x00 :: w :: 0x34 :: jh :: jl :: 0x03 :: sv).drop 8 = sv := rfl
  simp only [processPayload, hd, asciiDecode, ha, if_true]
  rfl

/-- C4 as stated is false: for digital join 32769 (value 1) the encoder
emits high join byte 0x80, and the decoder's 0x7F mask and 0x80 state bit
turn the packet back into join 1, state 0 instead of join 32769, value 1. -/
theorem C4_counterexample :
    ¬ ((encodeOut Flavor.d 32769 (PyVal.intV 1)).bind
          (fun tx => processPayload baseState (tx.headD 0) (tx.drop 3)) =
        some { baseState with
          event_queue := [⟨Dir.inn, Flavor.d, 32769, PyVal.intV 1⟩] }) ∧
    (encodeOut Flavor.d 32769 (PyVal.intV 1)).bind
        (fun tx => processPayload baseState (tx.headD 0) (tx.drop 3)) =
      some { baseState with
        event_queue := [⟨Dir.inn, Flavor.d, 1, PyVal.intV 0⟩] } := by
  constructor
  · decide
  · decide

/-- C4 amended: the outbound wire encoder and the inbound decoder are
mutually inverse on digital joins 1..=32768 with values in 0 or 1 (not on
the claim's full 1..=65536, where the 15-bit wire join field overflows into
the state bit), on analog joins 1..=65535 with values 0..=65535, and on
serial joins 1..=65535 for every value the encoder accepts. -/
theorem C4_roundtrip :
    (∀ (st : ClientState) (join v : Nat), 1 ≤ join → join ≤ 32768 → (v = 0 ∨ v = 1) →
      ∃ tx, encodeOut Flavor.d join (PyVal.intV v) = some tx ∧
        processPayload st (tx.headD 0) (tx.drop 3) =
          some { st with event_queue := st.event_queue ++
            [⟨Dir.inn, Flavor.d, join, PyVal.intV v⟩] }) ∧
    (∀ (st : ClientState) (join : Nat) (v : Int), 1 ≤ join → join ≤ 65535 →
        0 ≤ v → v ≤ 65535 →
      ∃ tx, encodeOut Flavor.a join (PyVal.intV v) = some tx ∧
        processPayload st (tx.headD 0) (tx.drop 3) =
          some { st with event_queue := st.event_queue ++
            [⟨Dir.inn, Flavor.a, join, PyVal.intV v⟩] }) ∧
    (∀ (st : ClientState) (join : Nat) (sv tx : List Nat), 1 ≤ join → join ≤ 65535 →
      encodeOut Flavor.s join (PyVal.strV sv) = some tx →
        processPayload st (tx.headD 0) (tx.drop 3) =
          some { st with event_queue := st.event_queue ++
            [⟨Dir.inn, Flavor.s, join, PyVal.strV sv⟩] }) := by
  refine ⟨?_, ?_, ?_⟩
  · intro st join v h1 h2 hv
    have hq : (join - 1) / 256 < 128 := by omega
    have hr : (join - 1) % 256 < 256 := by omega
    have hjoin : (join - 1) / 256 * 256 + (join - 1) % 256 + 1 = join := by omega
    rcases hv with hv | hv <;> subst hv
    · have henc := encodeOut_digital Flavor.d join (PyVal.intV 0) rfl h1 (by omega)
      norm_num at henc
      refine ⟨_, henc, ?_⟩
      have step := processPayload_digital st ((join - 1) % 256) ((join - 1) / 256 ||| 128)
      have e3 : ((join - 1) / 256 ||| 128) &&& 127 = (join - 1) / 256 := by
        rw [or_and_right, and_127_of_lt hq, (by decide : (128 &&& 127 : Nat) = 0)]
        simp
      have e4 : ((join - 1) / 256 ||| 128) &&& 128 = 128 := by
        rw [or_and_right, and_128_of_lt hq, (by decide : (128 &&& 128 : Nat) = 128)]
        simp
      rw [e3, e4, shiftLeft8_or_add _ _ hr, hjoin,
        (by decide : ((128 >>> 7 : Nat) ^^^ 1) = 0)] at step
      exact step
    · have henc := encodeOut_digital Flavor.d join (PyVal.intV 1) rfl h1 (by omega)
      norm_num at henc
      refine ⟨_, henc, ?_⟩
      have step := processPayload_digital st ((join - 1) % 256) ((join - 1) / 256)
      rw [and_127_of_lt hq, and_128_of_lt hq, shiftLeft8_or_add _ _ hr, hjoin,
        (by decide : ((0 >>> 7 : Nat) ^^^ 1) = 1)] at step
      exact step
  · intro st join v h1 h2 hv0 hv
    have henc := encodeOut_analog join v (by omega) hv0 (by omega)
    refine ⟨_, henc, ?_⟩
    have hjl : (join - 1) % 256 < 256 := by omega
    have hvn : v.toNat ≤ 65535 := by omega
    have step := processPayload_analog st ((join - 1) / 256) ((join - 1) % 256)
      (v.toNat / 256) (v.toNat % 256)
    have ej : (((join - 1) / 256) <<< 8 ||| (join - 1) % 256) + 1 = join := by
      rw [shiftLeft8_or_add _ _ hjl]
      omega
    have ev : ((v.toNat / 256) <<< 8) + v.toNat % 256 = v.toNat := by
      rw [Nat.shiftLeft_eq]
      omega
    rw [ej, ev, Int.toNat_of_nonneg hv0] at step
    exact step
  · intro st join sv tx h1 h2 henc
    by_cases hl : 8 + sv.length < 256
    · by_cases ha : sv.all (fun c => c < 128) = true
      · rw [encodeOut_serial join sv (by omega) (by omega) ha] at henc
        injection henc with htx
        subst htx
        have step := processPayload_serial st (4 + sv.length) ((join - 1) / 256)
          ((join - 1) % 256) sv ha
        have hjl : (join - 1) % 256 < 256 := by omega
        have ej : (((join - 1) / 256) <<< 8 ||| (join - 1) % 256) + 1 = join := by
          rw [shiftLeft8_or_add _ _ hjl]
          omega
        rw [ej] at step
        exact step
      · exfalso
        rw [encodeOut, show Flavor.s.head = SigKey.s from rfl] at henc
        simp [setByte, toBytes2N, asciiEncode, ha, hl, show join - 1 < 65536 by omega] at henc
    · exfalso
      rw [encodeOut, show Flavor.s.head = SigKey.s from rfl] at henc
      simp [setByte, hl] at henc

/-- Witness: C4_roundtrip applied at digital join 2, value 1; analog join 5,
value 1234; serial join 2, value "Hi". -/
theorem C4_roundtrip_witness :
    (∃ tx, encodeOut Flavor.d 2 (PyVal.intV 1) = some tx ∧
      processPayload baseState (tx.headD 0) (tx.drop 3) =
        some { baseState with event_queue :=
          baseState.event_queue ++ [⟨Dir.inn, Flavor.d, 2, PyVal.intV 1⟩] }) ∧
    (∃ tx, encodeOut Flavor.a 5 (PyVal.intV 1234) = some tx ∧
      processPayload baseState (tx.headD 0) (tx.drop 3) =
        some { baseState with event_queue :=
          baseState.event_queue ++ [⟨Dir.inn, Flavor.a, 5, PyVal.intV 1234⟩] }) ∧
    processPayload baseState
        ([0x12, 0x00, 0x0A, 0x00, 0x00, 0x00, 0x06, 0x34, 0x00, 0x01, 0x03, 0x48, 0x69].headD 0)
        ([0x12, 0x00, 0x0A, 0x00, 0x00, 0x00, 0x06, 0x34, 0x00, 0x01, 0x03, 0x48, 0x69].drop 3) =
      some { baseState with event_queue := baseState.event_queue ++
        [⟨Dir.inn, Flavor.s, 2, PyVal.strV [0x48, 0x69]⟩] } :=
  ⟨C4_roundtrip.1 baseState 2 1 (by decide) (by decide) (Or.inr rfl),
   C4_roundtrip.2.1 baseState 5 1234 (by decide) (by decide) (by decide) (by decide),
   C4_roundtrip.2.2 baseState 2 [0x48, 0x69] _ (by decide) (by decide) (by decide)⟩

/-- C3 as stated is false: set("s", 2, "Hi") does not put the claim's
15-byte packet 12 00 0A 00 00 00 00 34 00 06 00 01 03 48 69 on tx_queue. -/
theorem C3_counterexample :
    ¬ (((set SigKey.s 2 (PyVal.strV [0x48, 0x69])).bind
          (fun ev => processEvent baseState ev)).map ClientState.tx_queue =
        some [[0x12, 0x00, 0x0A, 0x00, 0x00, 0x00, 0x00, 0x34,
               0x00, 0x06, 0x00, 0x01, 0x03, 0x48, 0x69]]) := by
  decide

/-- C3 amended: set("s", 2, "Hi") puts on tx_queue exactly the 13-byte
packet 12 00 0A 00 00 00 06 34 00 01 03 48 69: template byte 2 rewritten to
8+len = 0x0A, byte 6 to 4+len = 0x06, then the 2-byte big-endian 0-based
join 00 01, the byte 0x03, and the ASCII value 48 69. -/
theorem C3_serial_hi_packet :
    ((set SigKey.s 2 (PyVal.strV [0x48, 0x69])).bind
        (fun ev => processEvent baseState ev)).map ClientState.tx_queue =
      some [[0x12, 0x00, 0x0A, 0x00, 0x00, 0x00, 0x06, 0x34,
             0x00, 0x01, 0x03, 0x48, 0x69]] := by
  decide

/-- C5: the claim says opcode 0x03 latches restart_requested, but the
decoder's 0x03 branch only logs: the state is returned unchanged and
restart_connection stays false. -/
theorem C5_disconnect_does_not_latch :
    processPayload baseState 0x03 [] = some baseState ∧
    baseState.restart_connection = false := by
  decide

/-- C6: the claim says a negative analog value fails validation and
enqueues nothing, but set("a", 1, -1) passes the check (only the type and
the upper bound 65535 are tested) and enqueues the event; the later
to_bytes call in the event processor then raises OverflowError (encoder
returns none). Non-ints and values above 65535 are rejected as claimed. -/
theorem C6_negative_analog_accepted :
    set SigKey.a 1 (PyVal.intV (-1)) = some ⟨Dir.out, Flavor.a, 1, PyVal.intV (-1)⟩ ∧
    set SigKey.a 1 (PyVal.intV 70000) = none ∧
    set SigKey.a 1 (PyVal.strV [0x41]) = none ∧
    encodeOut Flavor.a 1 (PyVal.intV (-1)) = none := by
  decide

/-- C7: the claim says a callback exception is caught and logged and the
event processor keeps running, but only KeyError is caught: a callback
raising any other exception makes the loop body raise (thread death), and
a callback raising KeyError lands in the upsert handler, which silently
replaces the entry with a bare [value] and so drops every registered
callback. -/
theorem C7_callback_exception_escapes :
    processEvent cbOtherState ⟨Dir.out, Flavor.d, 1, PyVal.intV 1⟩ = none ∧
    (processEvent cbKeyErrState ⟨Dir.out, Flavor.d, 1, PyVal.intV 1⟩).map
        (fun s => dGet s.join.out.d 1) =
      some (some ⟨PyVal.intV 1, []⟩) := by
  decide

/-- C8 as stated is false: a socket read of exactly 0F 00 00 is discarded
by the framing check that needs at least 4 remaining bytes, so the decoder
never runs and no registration response is enqueued. -/
theorem C8_counterexample :
    processBuffer baseState [0x0F, 0x00, 0x00] = some baseState ∧
    baseState.tx_queue = [] := by
  decide

/-- C8 amended: the lone 3-byte registration request is dropped by the
framing rule; when a registration request does reach the decoder (any read
of at least 4 bytes, here 0F 00 01 02), the client enqueues the
registration response 01 00 0B 00 00 00 00 00 03 40 FF FF F1 01. -/
theorem C8_registration_response :
    processBuffer baseState [0x0F, 0x00, 0x01, 0x02] =
      some { baseState with
        tx_queue := [[0x01, 0x00, 0x0B, 0x00, 0x00, 0x00, 0x00, 0x00,
                      0x03, 0x40, 0xFF, 0xFF, 0xF1, 0x01]] } := by
  decide

/-- The end-of-query replay over the digital outbound store appends one
outbound event per stored join when every stored value is a valid digital
value (which set() then accepts). -/
theorem replayFold_d (l : JoinDict) (q : List Event)
    (h : l.all (fun p => dOK p.2.value) = true) :
    replayFold SigKey.d l q =
      q ++ l.map (fun p => ⟨Dir.out, Flavor.d, p.1, p.2.value⟩) := by
  induction l generalizing q with
  | nil => simp [replayFold]
  | cons p rest ih =>
    simp only [List.all_cons, Bool.and_eq_true] at h
    obtain ⟨hp, hrest⟩ := h
    have hp' : p.2.value = .intV 0 ∨ p.2.value = .intV 1 := by
      simpa [dOK] using hp
    have hset : set SigKey.d p.1 p.2.value =
        some ⟨Dir.out, Flavor.d, p.1, p.2.value⟩ := by
      rcases hp' with h0 | h1
      · exact if_neg (fun hc => hc.1 h0)
      · exact if_neg (fun hc => hc.2 h1)
    have step : replayFold SigKey.d (p :: rest) q =
        replayFold SigKey.d rest (q ++ [⟨Dir.out, Flavor.d, p.1, p.2.value⟩]) := by
      simp only [replayFold, List.foldl_cons, hset]
    rw [step, ih _ hrest]
    simp

/-- The end-of-query replay over the analog outbound store. -/
theorem replayFold_a (l : JoinDict) (q : List Event)
    (h : l.all (fun p => aOK p.2.value) = true) :
    replayFold SigKey.a l q =
      q ++ l.map (fun p => ⟨Dir.out, Flavor.a, p.1, p.2.value⟩) := by
  induction l generalizing q with
  | nil => simp [replayFold]
  | cons p rest ih =>
    simp only [List.all_cons, Bool.and_eq_true] at h
    obtain ⟨hp, hrest⟩ := h
    rcases hv : p.2.value with n | sv
    · rw [hv] at hp
      have hn : ¬ n > 65535 := by
        simpa [aOK] using hp
      have hset : set SigKey.a p.1 p.2.value =
          some ⟨Dir.out, Flavor.a, p.1, p.2.value⟩ := by
        rw [hv]
        exact if_neg hn
      have step : replayFold SigKey.a (p :: rest) q =
          replayFold SigKey.a rest (q ++ [⟨Dir.out, Flavor.a, p.1, p.2.value⟩]) := by
        simp only [replayFold, List.foldl_cons, hset]
      rw [step, ih _ hrest]
      simp
    · rw [hv] at hp
      simp [aOK] at hp

/-- The end-of-query replay over the serial outbound store. -/
theorem replayFold_s (l : JoinDict) (q : List Event)
    (h : l.all (fun p => sOK p.2.value) = true) :
    replayFold SigKey.s l q =
      q ++ l.map (fun p => ⟨Dir.out, Flavor.s, p.1, p.2.value⟩) := by
  induction l generalizing q with
  | nil => simp [replayFold]
  | cons p rest ih =>
    simp only [List.all_cons, Bool.and_eq_true] at h
    obtain ⟨hp, hrest⟩ := h
    rcases hv : p.2.value with n | sv
    · rw [hv] at hp
      simp [sOK] at hp
    · have hset : set SigKey.s p.1 p.2.value =
          some ⟨Dir.out, Flavor.s, p.1, p.2.value⟩ := by
        rw [hv]
        rfl
      have step : replayFold SigKey.s (p :: rest) q =
          replayFold SigKey.s rest (q ++ [⟨Dir.out, Flavor.s, p.1, p.2.value⟩]) := by
        simp only [replayFold, List.foldl_cons, hset]
      rw [step, ih _ hrest]
      simp

/-- C1: on a data packet with payload[3] = 0x03 and payload[4] = 0x1C the
decoder appends exactly the end-of-query ack 05 00 05 00 00 02 03 1D and
the heartbeat 0D 00 02 00 00 to tx_queue, sets connected, and re-emits one
outbound event per join of the outbound store carrying its stored value
(stated for stores holding only values the public surface can produce,
which is every reachable state). -/
theorem C1_end_of_query (st : ClientState) (payload : List Nat)
    (h3 : payload.get? 3 = some 0x03) (h4 : payload.get? 4 = some 0x1C)
    (hwt : wellTypedOut st.join = true) :
    processPayload st 0x05 payload =
      some { st with
        tx_queue := st.tx_queue ++ [eoqAck, heartbeatPkt],
        connected := true,
        event_queue := st.event_queue ++ replayEvents st.join.out } := by
  simp only [wellTypedOut, Bool.and_eq_true] at hwt
  obtain ⟨⟨hd, ha⟩, hs⟩ := hwt
  simp only [processPayload, h3, h4]
  norm_num
  rw [replayFold_d _ _ hd, replayFold_a _ _ ha, replayFold_s _ _ hs]
  simp [replayEvents, replayState]

/-- Witness: C1_end_of_query applied to replayState and the payload of the
packet 05 00 05 00 00 02 03 1C. -/
theorem C1_end_of_query_witness :
    processPayload replayState 0x05 [0x00, 0x00, 0x02, 0x03, 0x1C] =
      some { replayState with
        tx_queue := replayState.tx_queue ++ [eoqAck, heartbeatPkt],
        connected := true,
        event_queue := replayState.event_queue ++ replayEvents replayState.join.out } :=
  C1_end_of_query replayState _ rfl rfl (by decide)

/-- C9: for serial values up to 247 bytes the encoding succeeds and both
one-byte length fields (8+len at byte 2, 4+len at byte 6) fit in a byte;
at 248 bytes and beyond the byte assignment 8+len fails (247 is the largest
length that works); and set("s", ...) never rejects a value by length, so
an over-long value fails only later, in the event processor. -/
theorem C9_serial_length_bound :
    (∀ (join : Nat) (sv : List Nat), 1 ≤ join → join ≤ 65536 →
        sv.length ≤ 247 → sv.all (fun c => c < 128) = true →
      ∃ tx, encodeOut Flavor.s join (PyVal.strV sv) = some tx ∧
        tx.get? 2 = some (8 + sv.length) ∧ tx.get? 6 = some (4 + sv.length) ∧
        8 + sv.length ≤ 255 ∧ 4 + sv.length ≤ 255) ∧
    (∀ (join : Nat) (sv : List Nat), 248 ≤ sv.length →
      encodeOut Flavor.s join (PyVal.strV sv) = none) ∧
    (∀ (join : Nat) (v : PyVal),
      set SigKey.s join v = some ⟨Dir.out, Flavor.s, join, PyVal.strV (pyStr v)⟩) := by
  refine ⟨?_, ?_, ?_⟩
  · intro join sv h1 h2 hl ha
    refine ⟨_, encodeOut_serial join sv hl (by omega) ha, rfl, rfl, by omega, by omega⟩
  · intro join sv hl
    rw [encodeOut, show Flavor.s.head = SigKey.s from rfl]
    simp [setByte, show ¬ (8 + sv.length < 256) by omega]
  · intro join v
    rfl

/-- Witness: C9_serial_length_bound at join 2 with a 247-byte value, a
248-byte value, and set("s", 3, 248-byte value). -/
theorem C9_serial_length_bound_witness :
    (∃ tx, encodeOut Flavor.s 2 (PyVal.strV (List.replicate 247 0x41)) = some tx ∧
      tx.get? 2 = some (8 + (List.replicate 247 0x41).length) ∧
      tx.get? 6 = some (4 + (List.replicate 247 0x41).length) ∧
      8 + (List.replicate 247 0x41).length ≤ 255 ∧
      4 + (List.replicate 247 0x41).length ≤ 255) ∧
    encodeOut Flavor.s 2 (PyVal.strV (List.replicate 248 0x41)) = none ∧
    set SigKey.s 3 (PyVal.strV (List.replicate 248 0x41)) =
      some ⟨Dir.out, Flavor.s, 3,
        PyVal.strV (pyStr (PyVal.strV (List.replicate 248 0x41)))⟩ :=
  ⟨C9_serial_length_bound.1 2 (List.replicate 247 0x41) (by decide) (by decide)
      (by simp only [List.length_replicate, le_refl]) (by decide),
   C9_serial_length_bound.2.1 2 (List.replicate 248 0x41)
      (by simp only [List.length_replicate, le_refl]),
   C9_serial_length_bound.2.2 3 (PyVal.strV (List.replicate 248 0x41))⟩

/-- Reading back the key just assigned returns the assigned entry. -/
theorem dGet_dSet (l : JoinDict) (j : Nat) (e : JoinEntry) :
    dGet (dSet l j e) j = some e := by
  induction l with
  | nil => simp [dGet, dSet]
  | cons p rest ih =>
    obtain ⟨k, x⟩ := p
    by_cases hk : k = j
    · simp [dGet, dSet, hk]
    · simp [dGet, dSet, hk, ih]

/-- After the store upsert succeeds, the join holds the event's value. -/
theorem applyStore_value (l : JoinDict) (j : Nat) (v : PyVal) (l' : JoinDict)
    (h : applyStore l j v = some l') :
    ∃ cbs, dGet l' j = some ⟨v, cbs⟩ := by
  unfold applyStore at h
  rcases hg : dGet l j with _ | e <;> rw [hg] at h
  · injection h with h
    subst h
    exact ⟨[], dGet_dSet l j ⟨v, []⟩⟩
  · dsimp only at h
    rcases hc : cbRun e.callbacks with _ | _ | _ <;> rw [hc] at h
    · injection h with h
      subst h
      exact ⟨e.callbacks, dGet_dSet l j ⟨v, e.callbacks⟩⟩
    · injection h with h
      subst h
      exact ⟨[], dGet_dSet l j ⟨v, []⟩⟩
    · cases h

/-- Reading back the dictionary just stored returns it. -/
theorem storeDict_storePut (js : JoinStore) (dir : Dir) (sk : SigKey) (l : JoinDict) :
    storeDict (storePut js dir sk l) dir sk = l := by
  cases dir <;> cases sk <;> rfl

/-- The outbound half of the event loop never touches the join store. -/
theorem outStep_join (st st' : ClientState) (ev : Event)
    (h : outStep st ev = some st') : st'.join = st.join := by
  obtain ⟨dv, fv, jv, vv⟩ := ev
  unfold outStep at h
  cases dv
  · injection h with h
    subst h
    rfl
  · dsimp only at h
    rcases he : encodeOut fv jv vv with _ | tx <;> rw [he] at h
    · cases h
    · dsimp only at h
      split_ifs at h <;> (injection h with h; subst h; rfl)

/-- After the store half of the event loop, the join holds the value. -/
theorem storeStep_value (st st' : ClientState) (ev : Event)
    (h : storeStep st ev = some st') :
    ∃ cbs, dGet (storeDict st'.join ev.dir ev.sigtype.head) ev.join =
      some ⟨ev.value, cbs⟩ := by
  unfold storeStep at h
  rcases ha : applyStore (storeDict st.join ev.dir ev.sigtype.head) ev.join ev.value
    with _ | l' <;> rw [ha] at h
  · cases h
  · injection h with h
    subst h
    rw [storeDict_storePut]
    exact applyStore_value _ _ _ _ ha

/-- C10: db and dp events are stored under sigtype key d (the first
character of the flavor), so a processed press(j) makes
get("d", j, direction="out") read 1 and a processed release(j) makes it
read 0; db and dp encode identical packets, which differ from the plain d
packet only at template byte 6; flavor never changes the store key. -/
theorem C10_button_flavors_store_under_d :
    (Flavor.head .db = SigKey.d ∧ Flavor.head .dp = SigKey.d ∧
      Flavor.head .d = SigKey.d) ∧
    (∀ (st st' : ClientState) (j : Nat),
      processEvent st ⟨Dir.out, Flavor.db, j, PyVal.intV 1⟩ = some st' →
        getJoin st' Dir.out SigKey.d j = PyVal.intV 1) ∧
    (∀ (st st' : ClientState) (j : Nat),
      processEvent st ⟨Dir.out, Flavor.db, j, PyVal.intV 0⟩ = some st' →
        getJoin st' Dir.out SigKey.d j = PyVal.intV 0) ∧
    (∀ (j : Nat) (v : PyVal), encodeOut Flavor.db j v = encodeOut Flavor.dp j v) ∧
    (∀ (j : Nat) (v : PyVal) (tx : List Nat), encodeOut Flavor.d j v = some tx →
      encodeOut Flavor.db j v = some (tx.set 6 0x27)) := by
  refine ⟨⟨rfl, rfl, rfl⟩, ?_, ?_, ?_, ?_⟩
  · intro st st' j h
    unfold processEvent at h
    rcases hs : storeStep st ⟨Dir.out, Flavor.db, j, PyVal.intV 1⟩ with _ | st1 <;>
      rw [hs] at h
    · cases h
    · rw [Option.some_bind] at h
      obtain ⟨cbs, hget⟩ := storeStep_value st st1 _ hs
      dsimp only [Flavor.head] at hget
      have hj := outStep_join st1 st' _ h
      unfold getJoin
      rw [hj, hget]
  · intro st st' j h
    unfold processEvent at h
    rcases hs : storeStep st ⟨Dir.out, Flavor.db, j, PyVal.intV 0⟩ with _ | st1 <;>
      rw [hs] at h
    · cases h
    · rw [Option.some_bind] at h
      obtain ⟨cbs, hget⟩ := storeStep_value st st1 _ hs
      dsimp only [Flavor.head] at hget
      have hj := outStep_join st1 st' _ h
      unfold getJoin
      rw [hj, hget]
  · intro j v
    rfl
  · intro j v tx h
    simp only [encodeOut, Flavor.head] at h ⊢
    rw [Option.map_eq_some'] at h
    obtain ⟨b, hb, rfl⟩ := h
    rw [hb]
    rfl

/-- Witness: C10_button_flavors_store_under_d on baseState with join 4 and
on the d/db encodings at join 4, value 1. -/
theorem C10_button_flavors_witness :
    getJoin pressResult Dir.out SigKey.d 4 = PyVal.intV 1 ∧
    encodeOut Flavor.db 4 (PyVal.intV 1) = encodeOut Flavor.dp 4 (PyVal.intV 1) ∧
    encodeOut Flavor.db 4 (PyVal.intV 1) =
      some ([0x05, 0x00, 0x06, 0x00, 0x00, 0x03, 0x00, 0x03, 0x00].set 6 0x27) :=
  ⟨C10_button_flavors_store_under_d.2.1 baseState pressResult 4 (by decide),
   C10_button_flavors_store_under_d.2.2.2.1 4 (PyVal.intV 1),
   C10_button_flavors_store_under_d.2.2.2.2 4 (PyVal.intV 1)
     [0x05, 0x00, 0x06, 0x00, 0x00, 0x03, 0x00, 0x03, 0x00] (by decide)⟩

end CIPClient
